import Mathlib

/-!
Shallow embedding of the banking simulator in `src/desafio_poo.py`.

Monetary amounts (Python floats used only through `+`, `-` and order
comparisons) are modelled as rationals `ℚ`.  The timestamp stored in a
history entry (`datetime.now().strftime(...)`) is environmental and is
never read back by the program logic, so it is omitted from the embedded
history entry.  Console `print` calls are modelled by the distinct
result constructors of `ResultadoSaque`: each `print` branch of `sacar`
corresponds to exactly one constructor.
-/

/-- `PessoaFisica` (desafio_poo.py lines 38-54): a customer.  The
`contas` list of the base class `Cliente` is the per-customer view of
the globally registered accounts; the registry side of the model
(`Banco`) keeps the global `contas` list of `main`. -/
structure PessoaFisica where
  nome : String
  data_nascimento : String
  cpf : String
  endereco : String
deriving DecidableEq, Repr

/-- One entry of `Historico._transacoes` (lines 192-200): the dict
`{"tipo": class name, "valor": amount, "data": timestamp}`.  `tipo` is
the Python class name string (`"Saque"` or `"Deposito"`); the timestamp
is omitted (environmental, never read by the program logic). -/
structure HistEntry where
  tipo : String
  valor : ℚ
deriving DecidableEq, Repr

/-- Outcome of `sacar`: one constructor per branch/printed message.
`Conta.sacar` can produce the first three; `ContaCorrente.sacar` adds
the last two.  The Python return value `True` corresponds to `sucesso`,
`False` to every other constructor. -/
inductive ResultadoSaque where
  | sucesso
  | excedeuSaldo
  | valorInvalido
  | excedeuLimite
  | excedeuSaques
deriving DecidableEq, Repr

/-- `Conta.sacar` (lines 110-123).  The base-class withdrawal reads and
writes only `_saldo`, so it is embedded as a function of the balance.
It returns the branch taken together with the new balance. -/
def Conta.sacar (saldo valor : ℚ) : ResultadoSaque × ℚ :=
  if valor > saldo then (ResultadoSaque.excedeuSaldo, saldo)
  else if valor > 0 then (ResultadoSaque.sucesso, saldo - valor)
  else (ResultadoSaque.valorInvalido, saldo)

/-- `Conta.depositar` (lines 125-133): returns the success flag and the
new balance. -/
def Conta.depositar (saldo valor : ℚ) : Bool × ℚ :=
  if valor > 0 then (true, saldo + valor) else (false, saldo)

/-- `ContaCorrente` (lines 61-77 and 140-151): balance, account number,
branch code, owner, history, per-withdrawal limit and maximum number of
withdrawals. -/
structure ContaCorrente where
  saldo : ℚ
  numero : ℕ
  agencia : String
  cliente : PessoaFisica
  historico : List HistEntry
  limite : ℚ
  limite_saques : ℕ
deriving DecidableEq, Repr

/-- `Conta.nova_conta` as used by `criar_conta` (line 404):
`ContaCorrente(numero, cliente)` with the defaults of `Conta.__init__`
(lines 72-77) and `ContaCorrente.__init__` (lines 148-151). -/
def ContaCorrente.nova_conta (cliente : PessoaFisica) (numero : ℕ) : ContaCorrente :=
  { saldo := 0, numero := numero, agencia := "0001", cliente := cliente,
    historico := [], limite := 500, limite_saques := 3 }

/-- The local `numero_saques` of `ContaCorrente.sacar` (lines 157-159):
the number of history entries whose `tipo` equals the class name
`"Saque"`, counted over the whole history (no time window). -/
def numero_saques (c : ContaCorrente) : ℕ :=
  (c.historico.filter (fun t => t.tipo == "Saque")).length

/-- `ContaCorrente.sacar` (lines 155-171): checks the per-withdrawal
limit first, then the withdrawal count, and only then delegates to
`Conta.sacar`. -/
def ContaCorrente.sacar (c : ContaCorrente) (valor : ℚ) : ResultadoSaque × ContaCorrente :=
  let excedeu_limite := valor > c.limite
  let excedeu_saques := numero_saques c ≥ c.limite_saques
  if excedeu_limite then (ResultadoSaque.excedeuLimite, c)
  else if excedeu_saques then (ResultadoSaque.excedeuSaques, c)
  else
    let r := Conta.sacar c.saldo valor
    (r.1, { c with saldo := r.2 })

/-- `ContaCorrente.depositar`: the deposit method is inherited unchanged
from `Conta` (lines 125-133), lifted here to the account state. -/
def ContaCorrente.depositar (c : ContaCorrente) (valor : ℚ) : Bool × ContaCorrente :=
  let r := Conta.depositar c.saldo valor
  (r.1, { c with saldo := r.2 })

/-- `Historico.adicionar_transacao` (lines 192-200): appends one entry
at the end of the log. -/
def Historico.adicionar_transacao (hist : List HistEntry) (tipo : String) (valor : ℚ) :
    List HistEntry :=
  hist ++ [{ tipo := tipo, valor := valor }]

/-- `Saque.registrar` (lines 229-233): perform the withdrawal and, on
success only, append a `"Saque"` history entry.  The Python method
returns `None`; the first component exposes the branch taken by `sacar`
(the local `sucesso_transacao` is `.1 = sucesso`) for specification. -/
def Saque.registrar (valor : ℚ) (c : ContaCorrente) : ResultadoSaque × ContaCorrente :=
  let r := c.sacar valor
  if r.1 = ResultadoSaque.sucesso then
    (r.1, { r.2 with historico := Historico.adicionar_transacao r.2.historico "Saque" valor })
  else (r.1, r.2)

/-- `Deposito.registrar` (lines 245-249): perform the deposit and, on
success only, append a `"Deposito"` history entry.  The first component
exposes the local `sucesso_transacao`. -/
def Deposito.registrar (valor : ℚ) (c : ContaCorrente) : Bool × ContaCorrente :=
  let r := c.depositar valor
  if r.1 then
    (r.1, { r.2 with historico := Historico.adicionar_transacao r.2.historico "Deposito" valor })
  else (r.1, r.2)

/-- A transaction constructed by the menu: `Saque(valor)` or
`Deposito(valor)` (lines 220-249). -/
inductive Op where
  | saque (valor : ℚ)
  | deposito (valor : ℚ)
deriving DecidableEq, Repr

/-- The amount of a transaction (`Transacao.valor`). -/
def Op.valor : Op → ℚ
  | .saque v => v
  | .deposito v => v

/-- Whether the transaction is a `Deposito`. -/
def Op.eDeposito : Op → Bool
  | .saque _ => false
  | .deposito _ => true

/-- Whether the transaction is a `Saque`. -/
def Op.eSaque : Op → Bool
  | .saque _ => true
  | .deposito _ => false

/-- The Python class name recorded for the transaction
(`transacao.__class__.__name__`, line 196). -/
def Op.tipoNome : Op → String
  | .saque _ => "Saque"
  | .deposito _ => "Deposito"

/-- `Cliente.realizar_transacao` (lines 29-31) /
`transacao.registrar(conta)`: apply one transaction to an account,
returning the success flag of the underlying operation together with
the new account state. -/
def aplicar (c : ContaCorrente) : Op → Bool × ContaCorrente
  | .saque v =>
      let r := Saque.registrar v c
      (r.1 = ResultadoSaque.sucesso, r.2)
  | .deposito v => Deposito.registrar v c

/-- Apply a sequence of transactions in order. -/
def executarOps (c : ContaCorrente) : List Op → ContaCorrente
  | [] => c
  | op :: ops => executarOps (aplicar c op).2 ops

/-- Number of successful applications along a sequence. -/
def numSucessos (c : ContaCorrente) : List Op → ℕ
  | [] => 0
  | op :: ops => (if (aplicar c op).1 then 1 else 0) + numSucessos (aplicar c op).2 ops

/-- Sum of the amounts of the successful deposits along a sequence. -/
def somaDepSucesso (c : ContaCorrente) : List Op → ℚ
  | [] => 0
  | op :: ops =>
      (if (aplicar c op).1 && op.eDeposito then op.valor else 0)
        + somaDepSucesso (aplicar c op).2 ops

/-- Sum of the amounts of the successful withdrawals along a sequence. -/
def somaSaqSucesso (c : ContaCorrente) : List Op → ℚ
  | [] => 0
  | op :: ops =>
      (if (aplicar c op).1 && op.eSaque then op.valor else 0)
        + somaSaqSucesso (aplicar c op).2 ops

/-! ### Registry: customers and the run state of `main` -/

/-- `filtrar_cliente` (lines 269-272): first customer whose `cpf`
matches, if any. -/
def filtrar_cliente (cpf : String) (clientes : List PessoaFisica) : Option PessoaFisica :=
  (clientes.filter (fun cliente => cliente.cpf == cpf)).head?

/-- `criar_cliente` (lines 376-392): reject a duplicate cpf, otherwise
append the new `PessoaFisica` to the list. -/
def criar_cliente (nome data_nascimento cpf endereco : String)
    (clientes : List PessoaFisica) : List PessoaFisica :=
  match filtrar_cliente cpf clientes with
  | some _ => clientes
  | none => clientes ++ [{ nome := nome, data_nascimento := data_nascimento,
                           cpf := cpf, endereco := endereco }]

/-- `criar_conta` (lines 395-408): `None` when the customer is not
found, otherwise the freshly created `ContaCorrente`. -/
def criar_conta (numero_conta : ℕ) (cpf : String) (clientes : List PessoaFisica) :
    Option ContaCorrente :=
  match filtrar_cliente cpf clientes with
  | none => none
  | some cliente => some (ContaCorrente.nova_conta cliente numero_conta)

/-- The in-memory state of `main` (lines 429-430): the two lists
`clientes` and `contas`. -/
structure Banco where
  clientes : List PessoaFisica
  contas : List ContaCorrente
deriving DecidableEq, Repr

/-- The state-changing menu actions of `main` (lines 432-454).
`novoUsuario` is option `nu`, `novaConta` is option `nc`, and
`transacao` covers options `d` and `s` applied to one of the existing
accounts (statement printing and listing mutate nothing). -/
inductive Acao where
  | novoUsuario (nome data_nascimento cpf endereco : String)
  | novaConta (cpf : String)
  | transacao (i : ℕ) (op : Op)
deriving DecidableEq, Repr

/-- One iteration of the `main` loop over the state.  For `nc` (lines
443-447) the offered number is `len(contas) + 1` and the account is
appended only when creation succeeds.  For `d`/`s` the selected account
is updated in place by `aplicar`; membership of `contas` and every
`numero` are untouched. -/
def executar (b : Banco) : Acao → Banco
  | .novoUsuario nome data_nascimento cpf endereco =>
      { b with clientes := criar_cliente nome data_nascimento cpf endereco b.clientes }
  | .novaConta cpf =>
      let numero_conta := b.contas.length + 1
      match criar_conta numero_conta cpf b.clientes with
      | none => b
      | some conta => { b with contas := b.contas ++ [conta] }
  | .transacao i op =>
      match b.contas[i]? with
      | none => b
      | some c => { b with contas := b.contas.set i (aplicar c op).2 }

/-- Run a whole sequence of menu actions. -/
def executarAcoes (b : Banco) : List Acao → Banco
  | [] => b
  | a :: as => executarAcoes (executar b a) as

/-- The initial state of `main` (lines 429-430): both lists empty. -/
def bancoInicial : Banco := { clientes := [], contas := [] }

/-! ### Concrete fixtures for closed instances -/

/-- A sample customer. -/
def pfAna : PessoaFisica :=
  { nome := "Ana", data_nascimento := "01-01-1990", cpf := "12345678900",
    endereco := "Rua A, 1" }

/-- A sample account with balance 100 and empty history. -/
def contaSaldo100 : ContaCorrente :=
  { ContaCorrente.nova_conta pfAna 1 with saldo := 100 }

/-- A sample account with balance 1000 whose history already holds three
withdrawals. -/
def contaTresSaques : ContaCorrente :=
  { ContaCorrente.nova_conta pfAna 1 with
      saldo := 1000,
      historico := [{ tipo := "Saque", valor := 10 }, { tipo := "Saque", valor := 20 },
                    { tipo := "Saque", valor := 30 }] }

/-- A sample run of menu actions: create a customer, open an account,
fail to open one for an unknown cpf, open a second account. -/
def acoesDemo : List Acao :=
  [Acao.novoUsuario "Ana" "01-01-1990" "12345678900" "Rua A, 1",
   Acao.novaConta "12345678900",
   Acao.novaConta "00000000000",
   Acao.novaConta "12345678900"]

/-! ### Characterization lemmas for single steps -/

lemma aplicar_deposito (c : ContaCorrente) (v : ℚ) :
    aplicar c (Op.deposito v) =
      if 0 < v then
        (true, { c with saldo := c.saldo + v,
                        historico := c.historico ++ [⟨"Deposito", v⟩] })
      else (false, c) := by
  by_cases h : 0 < v <;>
    simp [aplicar, Deposito.registrar, ContaCorrente.depositar, Conta.depositar,
      Historico.adicionar_transacao, h]

lemma aplicar_saque (c : ContaCorrente) (v : ℚ) :
    aplicar c (Op.saque v) =
      if c.limite < v then (false, c)
      else if c.limite_saques ≤ numero_saques c then (false, c)
      else if c.saldo < v then (false, c)
      else if 0 < v then
        (true, { c with saldo := c.saldo - v,
                        historico := c.historico ++ [⟨"Saque", v⟩] })
      else (false, c) := by
  simp only [aplicar, Saque.registrar, ContaCorrente.sacar, Conta.sacar,
    Historico.adicionar_transacao, gt_iff_lt, ge_iff_le]
  by_cases h1 : c.limite < v
  · simp [h1]
  · by_cases h2 : c.limite_saques ≤ numero_saques c
    · simp [h1, h2]
    · by_cases h3 : c.saldo < v
      · simp [h1, h2, h3]
      · by_cases h4 : 0 < v <;> simp [h1, h2, h3, h4]

lemma aplicar_falha_eq (c : ContaCorrente) (op : Op) (h : (aplicar c op).1 = false) :
    (aplicar c op).2 = c := by
  cases op with
  | saque v =>
      rw [aplicar_saque] at h ⊢
      split_ifs at h ⊢ <;> simp_all
  | deposito v =>
      rw [aplicar_deposito] at h ⊢
      split_ifs at h ⊢
      simp_all

lemma aplicar_sucesso_historico (c : ContaCorrente) (op : Op)
    (h : (aplicar c op).1 = true) :
    (aplicar c op).2.historico = c.historico ++ [⟨op.tipoNome, op.valor⟩] := by
  cases op with
  | saque v =>
      rw [aplicar_saque] at h ⊢
      split_ifs at h ⊢
      simp_all [Op.tipoNome, Op.valor]
  | deposito v =>
      rw [aplicar_deposito] at h ⊢
      split_ifs at h ⊢
      simp_all [Op.tipoNome, Op.valor]

lemma aplicar_saldo_step (c : ContaCorrente) (op : Op) :
    (aplicar c op).2.saldo =
      c.saldo + (if (aplicar c op).1 && op.eDeposito then op.valor else 0)
        - (if (aplicar c op).1 && op.eSaque then op.valor else 0) := by
  cases op with
  | saque v =>
      rw [aplicar_saque]
      split_ifs <;> simp_all [Op.eDeposito, Op.eSaque, Op.valor]
  | deposito v =>
      rw [aplicar_deposito]
      split_ifs <;> simp_all [Op.eDeposito, Op.eSaque, Op.valor]

lemma aplicar_numero (c : ContaCorrente) (op : Op) :
    (aplicar c op).2.numero = c.numero := by
  cases op with
  | saque v =>
      rw [aplicar_saque]
      split_ifs <;> rfl
  | deposito v =>
      rw [aplicar_deposito]
      split_ifs <;> rfl

lemma aplicar_historico_length (c : ContaCorrente) (op : Op) :
    (aplicar c op).2.historico.length =
      c.historico.length + (if (aplicar c op).1 then 1 else 0) := by
  cases hf : (aplicar c op).1 with
  | false => rw [aplicar_falha_eq c op hf]; simp
  | true => rw [aplicar_sucesso_historico c op hf]; simp

lemma aplicar_saldo_nonneg (c : ContaCorrente) (op : Op) (h : 0 ≤ c.saldo) :
    0 ≤ (aplicar c op).2.saldo := by
  cases op with
  | saque v =>
      rw [aplicar_saque]
      split_ifs with h1 h2 h3 h4 <;> simp_all
  | deposito v =>
      rw [aplicar_deposito]
      split_ifs with h1 <;> simp_all
      linarith

lemma executarOps_saldo (ops : List Op) :
    ∀ c : ContaCorrente,
      (executarOps c ops).saldo = c.saldo + somaDepSucesso c ops - somaSaqSucesso c ops := by
  induction ops with
  | nil => intro c; simp [executarOps, somaDepSucesso, somaSaqSucesso]
  | cons op ops ih =>
      intro c
      rw [executarOps, somaDepSucesso, somaSaqSucesso, ih, aplicar_saldo_step]
      ring

lemma executarOps_historico_length (ops : List Op) :
    ∀ c : ContaCorrente,
      (executarOps c ops).historico.length = c.historico.length + numSucessos c ops := by
  induction ops with
  | nil => intro c; simp [executarOps, numSucessos]
  | cons op ops ih =>
      intro c
      rw [executarOps, numSucessos, ih, aplicar_historico_length]
      omega

lemma aplicar_historico_append (c : ContaCorrente) (op : Op) :
    ∃ novas, (aplicar c op).2.historico = c.historico ++ novas := by
  cases hf : (aplicar c op).1 with
  | false => exact ⟨[], by rw [aplicar_falha_eq c op hf]; simp⟩
  | true => exact ⟨[⟨op.tipoNome, op.valor⟩], aplicar_sucesso_historico c op hf⟩

lemma executarOps_historico_append (ops : List Op) :
    ∀ c : ContaCorrente, ∃ novas, (executarOps c ops).historico = c.historico ++ novas := by
  induction ops with
  | nil => intro c; exact ⟨[], by simp [executarOps]⟩
  | cons op ops ih =>
      intro c
      obtain ⟨n1, h1⟩ := aplicar_historico_append c op
      obtain ⟨n2, h2⟩ := ih (aplicar c op).2
      exact ⟨n1 ++ n2, by rw [executarOps, h2, h1, List.append_assoc]⟩

lemma executarOps_saldo_nonneg (ops : List Op) :
    ∀ c : ContaCorrente, 0 ≤ c.saldo → 0 ≤ (executarOps c ops).saldo := by
  induction ops with
  | nil => intro c h; simpa [executarOps] using h
  | cons op ops ih =>
      intro c h
      exact ih (aplicar c op).2 (aplicar_saldo_nonneg c op h)


lemma filtrar_cliente_eq_none (cpf : String) (clientes : List PessoaFisica) :
    filtrar_cliente cpf clientes = none ↔ ∀ c ∈ clientes, c.cpf ≠ cpf := by
  simp [filtrar_cliente, List.head?_eq_none_iff, List.filter_eq_nil_iff]

lemma executar_numero (b : Banco) (a : Acao)
    (hb : ∀ i (h : i < b.contas.length), (b.contas.get ⟨i, h⟩).numero = i + 1) :
    ∀ i (h : i < (executar b a).contas.length),
      ((executar b a).contas.get ⟨i, h⟩).numero = i + 1 := by
  cases a with
  | novoUsuario nome data_nascimento cpf endereco =>
      intro i h
      exact hb i h
  | novaConta cpf =>
      simp only [executar]
      cases hc : criar_conta (b.contas.length + 1) cpf b.clientes with
      | none => intro i h; exact hb i h
      | some conta =>
          intro i h
          simp only [List.get_eq_getElem] at h ⊢
          simp only [List.length_append, List.length_singleton] at h
          rcases Nat.lt_or_ge i b.contas.length with hi | hi
          · rw [List.getElem_append_left hi]
            exact hb i hi
          · have hieq : i = b.contas.length := by omega
            rw [List.getElem_concat_length _ _ _ hieq]
            have : conta.numero = b.contas.length + 1 := by
              unfold criar_conta at hc
              cases hf : filtrar_cliente cpf b.clientes with
              | none => rw [hf] at hc; cases hc
              | some cliente =>
                  rw [hf] at hc
                  cases hc
                  rfl
            omega
  | transacao j op =>
      simp only [executar]
      cases hg : b.contas[j]? with
      | none => intro i h; exact hb i h
      | some c =>
          intro i h
          simp only [List.get_eq_getElem, List.getElem_set] at h ⊢
          simp only [List.length_set] at h
          by_cases hij : j = i
          · subst hij
            rw [if_pos rfl, aplicar_numero]
            obtain ⟨hjl, hcj⟩ := List.getElem?_eq_some_iff.mp hg
            rw [← hcj]
            simpa using hb j hjl
          · rw [if_neg hij]
            exact hb i h

lemma executarAcoes_numero (as : List Acao) :
    ∀ b : Banco,
      (∀ i (h : i < b.contas.length), (b.contas.get ⟨i, h⟩).numero = i + 1) →
      ∀ i (h : i < (executarAcoes b as).contas.length),
        ((executarAcoes b as).contas.get ⟨i, h⟩).numero = i + 1 := by
  induction as with
  | nil => intro b hb; exact hb
  | cons a as ih =>
      intro b hb
      exact ih (executar b a) (executar_numero b a hb)

/-! ### Claims -/

/-- C1: starting from a freshly constructed account, after any finite
sequence of withdraw/deposit operations the balance equals the sum of
the amounts of the successful deposits minus the sum of the amounts of
the successful withdrawals; and any operation that fails leaves the
balance exactly as it was. -/
theorem saldo_igual_soma_depositos_menos_saques (cliente : PessoaFisica) (numero : ℕ)
    (ops : List Op) :
    (executarOps (ContaCorrente.nova_conta cliente numero) ops).saldo
      = somaDepSucesso (ContaCorrente.nova_conta cliente numero) ops
        - somaSaqSucesso (ContaCorrente.nova_conta cliente numero) ops
    ∧ ∀ (c : ContaCorrente) (op : Op),
        (aplicar c op).1 = false → (aplicar c op).2.saldo = c.saldo := by
  constructor
  · rw [executarOps_saldo]
    simp [ContaCorrente.nova_conta]
  · intro c op h
    rw [aplicar_falha_eq c op h]

theorem saldo_igual_soma_witness :
    (aplicar contaSaldo100 (Op.saque 150)).2.saldo = contaSaldo100.saldo :=
  (saldo_igual_soma_depositos_menos_saques pfAna 1 []).2 contaSaldo100 (Op.saque 150)
    (by decide)

/-- C2: the base-class withdrawal succeeds exactly when the amount is
positive and does not exceed the current balance; on failure the
balance is unchanged, on success it is decremented by exactly the
amount. -/
theorem conta_sacar_spec (saldo valor : ℚ) :
    ((Conta.sacar saldo valor).1 = ResultadoSaque.sucesso ↔ valor ≤ saldo ∧ 0 < valor)
    ∧ ((Conta.sacar saldo valor).1 ≠ ResultadoSaque.sucesso →
        (Conta.sacar saldo valor).2 = saldo)
    ∧ ((Conta.sacar saldo valor).1 = ResultadoSaque.sucesso →
        (Conta.sacar saldo valor).2 = saldo - valor) := by
  unfold Conta.sacar
  split_ifs with h1 h2
  · refine ⟨⟨fun h => absurd h (by decide), fun h => absurd h1 (not_lt.mpr h.1)⟩,
      fun _ => rfl, fun h => absurd h (by decide)⟩
  · exact ⟨⟨fun _ => ⟨not_lt.mp h1, h2⟩, fun _ => rfl⟩,
      fun h => absurd rfl h, fun _ => rfl⟩
  · refine ⟨⟨fun h => absurd h (by decide), fun h => absurd h.2 h2⟩,
      fun _ => rfl, fun h => absurd h (by decide)⟩

theorem conta_sacar_spec_witness : (Conta.sacar 100 150).2 = 100 :=
  (conta_sacar_spec 100 150).2.1 (by decide)

/-- C3: `ContaCorrente.sacar` evaluates the per-withdrawal-limit check
before the withdrawal-count check: an amount above the limit is always
reported as limit-exceeded (even when the count is also at its
maximum), and the count failure is reported only when the limit check
passes; in both cases the account is unchanged. -/
theorem contaCorrente_sacar_ordem (c : ContaCorrente) (v : ℚ) :
    (c.limite < v → c.sacar v = (ResultadoSaque.excedeuLimite, c))
    ∧ (v ≤ c.limite → c.limite_saques ≤ numero_saques c →
        c.sacar v = (ResultadoSaque.excedeuSaques, c)) := by
  constructor
  · intro h
    simp [ContaCorrente.sacar, h]
  · intro h1 h2
    simp [ContaCorrente.sacar, not_lt.mpr h1, h2]

theorem contaCorrente_sacar_ordem_witness :
    contaTresSaques.sacar 600 = (ResultadoSaque.excedeuLimite, contaTresSaques) :=
  (contaCorrente_sacar_ordem contaTresSaques 600).1 (by decide)

/-- C4: once the history holds as many `"Saque"` entries as
`limite_saques` (counted over the whole lifetime of the account — the
code has no time-window reset), any further withdrawal whose amount is
within the per-withdrawal limit fails with count-exceeded, regardless
of the balance, and the account is unchanged. -/
theorem contaCorrente_sacar_excedeu_saques (c : ContaCorrente) (v : ℚ)
    (hcount : numero_saques c = c.limite_saques) (hv : v ≤ c.limite) :
    c.sacar v = (ResultadoSaque.excedeuSaques, c) := by
  simp [ContaCorrente.sacar, not_lt.mpr hv, hcount.ge]

theorem contaCorrente_sacar_excedeu_saques_witness :
    contaTresSaques.sacar 50 = (ResultadoSaque.excedeuSaques, contaTresSaques) :=
  contaCorrente_sacar_excedeu_saques contaTresSaques 50 (by decide) (by decide)

/-- C5: the history holds exactly one entry per successful transaction,
in application order, and is append-only: its length grows by the
number of successful applications, a successful application appends
exactly its own entry at the end, and a failed application changes
nothing. -/
theorem historico_um_por_sucesso (c : ContaCorrente) (ops : List Op) :
    (executarOps c ops).historico.length = c.historico.length + numSucessos c ops
    ∧ (∃ novas, (executarOps c ops).historico = c.historico ++ novas)
    ∧ ∀ (d : ContaCorrente) (op : Op),
        ((aplicar d op).1 = true →
          (aplicar d op).2.historico = d.historico ++ [⟨op.tipoNome, op.valor⟩])
        ∧ ((aplicar d op).1 = false → (aplicar d op).2 = d) := by
  refine ⟨executarOps_historico_length ops c, executarOps_historico_append ops c, ?_⟩
  intro d op
  exact ⟨aplicar_sucesso_historico d op, aplicar_falha_eq d op⟩

theorem historico_um_por_sucesso_witness :
    (aplicar contaSaldo100 (Op.deposito 50)).2.historico
      = contaSaldo100.historico ++ [{ tipo := "Deposito", valor := 50 }] :=
  ((historico_um_por_sucesso contaSaldo100 []).2.2 contaSaldo100 (Op.deposito 50)).1
    (by decide)

/-- C6: a transaction whose application fails produces no side effect:
the account (balance and history alike) is returned unchanged, the
only caller-visible outcome being the failure signal itself. -/
theorem registrar_falha_sem_efeito (c : ContaCorrente) (v : ℚ) :
    ((Saque.registrar v c).1 ≠ ResultadoSaque.sucesso → (Saque.registrar v c).2 = c)
    ∧ ((Deposito.registrar v c).1 = false → (Deposito.registrar v c).2 = c) := by
  constructor
  · intro h
    have hf : (aplicar c (Op.saque v)).1 = false := by
      simp only [aplicar, decide_eq_false_iff_not]
      exact h
    exact aplicar_falha_eq c (Op.saque v) hf
  · intro h
    exact aplicar_falha_eq c (Op.deposito v) h

theorem registrar_falha_sem_efeito_witness :
    (Saque.registrar 150 contaSaldo100).2 = contaSaldo100 :=
  (registrar_falha_sem_efeito contaSaldo100 150).1 (by decide)

/-- C7: a deposit succeeds exactly when the amount is strictly
positive; on failure the account (balance and history) is unchanged,
and on success the balance is incremented by exactly the amount. -/
theorem deposito_spec (c : ContaCorrente) (v : ℚ) :
    ((Deposito.registrar v c).1 = true ↔ 0 < v)
    ∧ ((Deposito.registrar v c).1 = false → (Deposito.registrar v c).2 = c)
    ∧ (0 < v →
        (Deposito.registrar v c).1 = true
        ∧ (Deposito.registrar v c).2.saldo = c.saldo + v) := by
  have hd := aplicar_deposito c v
  simp only [aplicar] at hd
  rw [hd]
  split_ifs with h <;> simp [h]

theorem deposito_spec_witness :
    (Deposito.registrar 0 contaSaldo100).2 = contaSaldo100 :=
  (deposito_spec contaSaldo100 0).2.1 (by decide)

/-- C8: creating a customer whose cpf matches an existing customer's
cpf leaves the customer list unchanged, and cpf uniqueness (pairwise
distinct cpfs) is preserved by every `criar_cliente` call. -/
theorem criar_cliente_unicidade (clientes : List PessoaFisica)
    (nome data_nascimento cpf endereco : String) :
    ((∃ c ∈ clientes, c.cpf = cpf) →
      criar_cliente nome data_nascimento cpf endereco clientes = clientes)
    ∧ ((clientes.Pairwise fun a b => a.cpf ≠ b.cpf) →
        (criar_cliente nome data_nascimento cpf endereco clientes).Pairwise
          fun a b => a.cpf ≠ b.cpf) := by
  constructor
  · rintro ⟨c, hc, hcpf⟩
    unfold criar_cliente
    cases hf : filtrar_cliente cpf clientes with
    | some _ => rfl
    | none => exact absurd hcpf ((filtrar_cliente_eq_none cpf clientes).mp hf c hc)
  · intro hp
    unfold criar_cliente
    cases hf : filtrar_cliente cpf clientes with
    | some _ => exact hp
    | none =>
        rw [List.pairwise_append]
        refine ⟨hp, by simp, ?_⟩
        intro a ha b hb
        simp only [List.mem_singleton] at hb
        subst hb
        exact (filtrar_cliente_eq_none cpf clientes).mp hf a ha

theorem criar_cliente_unicidade_witness :
    criar_cliente "Beto" "02-02-1980" "12345678900" "Rua B, 2" [pfAna] = [pfAna] :=
  (criar_cliente_unicidade [pfAna] "Beto" "02-02-1980" "12345678900" "Rua B, 2").1
    (by decide)

/-- C9: in every run starting from the empty state, the account stored
at position i of the global account list carries number i + 1: assigned
numbers are exactly 1, 2, 3, ... in creation order — strictly
increasing, never reused — and failed creation attempts (unknown cpf)
consume no number.  The number offered to each creation is, by
construction in `executar`, the current account count plus one. -/
theorem numeros_contas_crescentes (as : List Acao) (i : ℕ)
    (h : i < (executarAcoes bancoInicial as).contas.length) :
    ((executarAcoes bancoInicial as).contas.get ⟨i, h⟩).numero = i + 1 :=
  executarAcoes_numero as bancoInicial (fun j hj => absurd hj (Nat.not_lt_zero j)) i h

theorem numeros_contas_crescentes_witness :
    ∃ h : 1 < (executarAcoes bancoInicial acoesDemo).contas.length,
      ((executarAcoes bancoInicial acoesDemo).contas.get ⟨1, h⟩).numero = 1 + 1 :=
  ⟨by decide, numeros_contas_crescentes acoesDemo 1 (by decide)⟩

/-- C10: starting from a freshly constructed account (balance 0), the
balance is non-negative after every finite sequence of
withdraw/deposit operations — hence at every intermediate point of a
longer sequence as well. -/
theorem saldo_nunca_negativo (cliente : PessoaFisica) (numero : ℕ) (ops : List Op) :
    0 ≤ (executarOps (ContaCorrente.nova_conta cliente numero) ops).saldo :=
  executarOps_saldo_nonneg ops (ContaCorrente.nova_conta cliente numero) (le_refl 0)
